import Mathlib

/-!
# Shallow embedding of the typescript-learning game core

This file embeds, in Lean 4, the two testable components of the repository's
demonstration game:

* `Inventory` with its stack-merge `addItem` / split-on-remove `removeItem`
  (source: `src/game-project/src/items/Inventory.ts`, the `Inventory<T>` class);
* `BaseCharacter.takeDamage` / `heal` / `attack` and the turn-ordered
  `CombatSystem` (sources: `src/game-project/src/characters/BaseCharacter.ts`,
  `src/game-project/src/combat/CombatSystem.ts`).

Modelling conventions:

* JavaScript numbers that the code keeps integral (stats, quantities, damage)
  are `Int`; `Math.random()` draws are rationals `ℚ` supplied by the caller
  (one `ℚ` per draw, consumed in program order from an oracle `ℕ → ℚ`).
* In-place object mutation becomes explicit state passing: a method that
  mutates `this` returns the updated value.
* A thrown `Error` becomes `Except CombatError` (or an explicit error
  component); each throw site of the modelled code is one constructor, carrying
  the data interpolated into the thrown message.
* A JavaScript `Map<string, T>` (insertion-ordered, unique keys) is a
  `List Item`: `get` is first-match lookup, `set` replaces in place the entry
  with the matching key (else appends), `delete` removes it.
-/

/-- One inventory item.  Combines the fields of `BaseItem` (`id`, `name`,
`type`, `quantity`, `value`) with the `Stackable` capability fields;
an item whose class does not implement `Stackable` (e.g. `Weapon`) has
`stackable := false` (the code probes `'stackable' in item &&
item.stackable === true`), and its `maxStack` field is irrelevant. -/
structure Item where
  id : String
  name : String
  itemType : String
  quantity : Int
  value : Int
  stackable : Bool
  maxStack : Int
  deriving Repr, DecidableEq

/-- The inventory: a `Map<string, T>` keyed by `item.id` plus `maxSlots`. -/
structure Inventory where
  items : List Item
  maxSlots : Nat
  deriving Repr, DecidableEq

namespace Inventory

/-- `Map.get(id)`: the (first) entry whose id matches. -/
def findItem (items : List Item) (itemId : String) : Option Item :=
  items.find? (fun i => i.id = itemId)

/-- `Map.set(key, v)` on a list with unique keys: replace the first entry with
the given key in place, else append. -/
def mapSet (items : List Item) (key : String) (v : Item) : List Item :=
  match items with
  | [] => [v]
  | x :: xs => if x.id = key then v :: xs else x :: mapSet xs key v

/-- `Map.delete(key)`: drop the first entry with the given key. -/
def mapDelete (items : List Item) (key : String) : List Item :=
  match items with
  | [] => []
  | x :: xs => if x.id = key then xs else x :: mapDelete xs key

/-- The tail of `Inventory.addItem`: the slot-capacity check followed by
`this.items.set(item.id, item)`. -/
def addNewSlot (inv : Inventory) (item : Item) : Inventory × Bool :=
  if inv.items.length ≥ inv.maxSlots then (inv, false)
  else ({ inv with items := mapSet inv.items item.id item }, true)

/-- `Inventory.addItem(item)`.  If an entry with the same id exists and is
stack-capable, merge if the summed quantity fits in `maxStack`, else reject;
otherwise fall through to the capacity check and `Map.set`. -/
def addItem (inv : Inventory) (item : Item) : Inventory × Bool :=
  match findItem inv.items item.id with
  | some existingItem =>
    if existingItem.stackable then
      if existingItem.quantity + item.quantity ≤ existingItem.maxStack then
        let merged := { existingItem with quantity := existingItem.quantity + item.quantity }
        ({ inv with items := mapSet inv.items item.id merged }, true)
      else
        (inv, false)
    else
      addNewSlot inv item
  | none => addNewSlot inv item

/-- `Inventory.removeItem(itemId, quantity = 1)`.  Returns the updated
inventory and the removed portion (`none` = the `null` not-found result). -/
def removeItem (inv : Inventory) (itemId : String) (quantity : Int := 1) :
    Inventory × Option Item :=
  match findItem inv.items itemId with
  | none => (inv, none)
  | some item =>
    if item.quantity ≤ quantity then
      ({ inv with items := mapDelete inv.items itemId }, some item)
    else
      let kept := { item with quantity := item.quantity - quantity }
      let removedItem := { item with quantity := quantity }
      ({ inv with items := mapSet inv.items itemId kept }, some removedItem)

/-- `Inventory.isFull()`. -/
def isFull (inv : Inventory) : Bool :=
  inv.items.length ≥ inv.maxSlots

/-- `Inventory.getAllItems().length` — the number of occupied slots. -/
def slotCount (inv : Inventory) : Nat :=
  inv.items.length

end Inventory

/-! ## Characters (`BaseCharacter`) -/

/-- The `Stats` record of `types.ts`. -/
structure Stats where
  health : Int
  maxHealth : Int
  mana : Int
  maxMana : Int
  attack : Int
  defense : Int
  speed : Int
  deriving Repr, DecidableEq

/-- The part of `BaseCharacter` the combat core reads and writes:
`name`, the mutable `_stats`, and `_level`. -/
structure Character where
  name : String
  stats : Stats
  level : Nat
  deriving Repr, DecidableEq

/-- The throw sites of the modelled code, one constructor per `throw`:
`notAlive n` is `Error(`${n} cannot attack while defeated`)` from
`BaseCharacter.attack`; `validationFailed m e` is
`Error(`Validation failed for ${m}: ${e}`)` from the `validate` decorator. -/
inductive CombatError where
  | notAlive (name : String)
  | validationFailed (methodName : String) (errorMessage : String)
  deriving Repr, DecidableEq

namespace Character

/-- `BaseCharacter.isAlive`: `health > 0`. -/
def isAlive (c : Character) : Bool :=
  c.stats.health > 0

/-- `BaseCharacter.takeDamage(damage)`, including its `@validate` wrapper
(`args[0] > 0`, else throw before the method body runs).  Returns the
character (unchanged when the validation throws) together with either the
thrown error or the returned `actualDamage`. -/
def takeDamage (c : Character) (damage : Int) : Character × Except CombatError Int :=
  if damage ≤ 0 then
    (c, .error (.validationFailed "takeDamage" "Damage must be a positive number"))
  else
    let actualDamage := max 1 (damage - c.stats.defense)
    let newHealth := max 0 (c.stats.health - actualDamage)
    ({ c with stats := { c.stats with health := newHealth } }, .ok actualDamage)

/-- `BaseCharacter.heal(amount)`: returns the healed character and the
`actualHealing` value. -/
def heal (c : Character) (amount : Int) : Character × Int :=
  let actualHealing := min amount (c.stats.maxHealth - c.stats.health)
  ({ c with stats := { c.stats with health := c.stats.health + actualHealing } },
   actualHealing)

/-- `BaseCharacter.attack(target)`.  `r` is the `Math.random()` draw for the
critical hit (`criticalChance = 0.1`).  Returns the (possibly damaged) target
and either a thrown error or the damage value returned by
`target.takeDamage(damage)`. -/
def attack (attacker : Character) (target : Character) (r : ℚ) :
    Character × Except CombatError Int :=
  if ¬ attacker.isAlive then
    (target, .error (.notAlive attacker.name))
  else
    let baseDamage := attacker.stats.attack
    let isCritical := r < mkRat 1 10
    let damage := if isCritical then baseDamage * 2 else baseDamage
    takeDamage target damage

end Character

/-! ## Combat (`CombatSystem`) -/

/-- `ActionType` of `types.ts` (the combat loop only emits the first three). -/
inductive ActionType where
  | attack
  | defend
  | useItem
  | flee
  deriving Repr, DecidableEq

/-- `CombatAction` of `types.ts`, restricted to the fields the loop writes. -/
structure CombatAction where
  actionType : ActionType
  actor : String
  target : Option String := none
  damage : Option Int := none
  deriving Repr, DecidableEq

/-- `CombatResult` of `types.ts`. -/
structure CombatResult where
  actions : List CombatAction
  winner : Option String
  experience : Nat
  loot : List Item
  deriving Repr, DecidableEq

/-- `CombatParticipant`. -/
structure Participant where
  character : Character
  isPlayer : Bool
  deriving Repr, DecidableEq

/-- The mutable state of a `CombatSystem` instance, plus the `Math.random()`
oracle: `rng i` is the value of the `i`-th draw, `rngIdx` counts the draws
already consumed. -/
structure CombatState where
  participants : List Participant
  currentTurn : Nat
  combatLog : List CombatAction
  rng : ℕ → ℚ
  rngIdx : ℕ

namespace CombatSystem

/-- Consume one `Math.random()` draw. -/
def drawRand (st : CombatState) : ℚ × CombatState :=
  (st.rng st.rngIdx, { st with rngIdx := st.rngIdx + 1 })

/-- `findCharacterByName`: first participant with the given character name. -/
def findCharacterByName (ps : List Participant) (n : String) : Option Character :=
  (ps.find? (fun p => p.character.name = n)).map (fun p => p.character)

/-- In-place mutation of the object returned by `findCharacterByName`:
replace the character of the first participant with the given name. -/
def updateCharacter (ps : List Participant) (n : String) (c : Character) :
    List Participant :=
  match ps with
  | [] => []
  | p :: rest =>
    if p.character.name = n then { p with character := c } :: rest
    else p :: updateCharacter rest n c

/-- The alive adversaries, in participant order
(`participants.filter(p => !p.isPlayer && p.character.isAlive)`). -/
def aliveEnemies (ps : List Participant) : List Participant :=
  ps.filter (fun p => !p.isPlayer && p.character.isAlive)

/-- `participants.find(p => p.isPlayer && p.character.isAlive)`. -/
def alivePlayer (ps : List Participant) : Option Participant :=
  ps.find? (fun p => p.isPlayer && p.character.isAlive)

/-- `isCombatOver`. -/
def isCombatOver (ps : List Participant) : Bool :=
  (aliveEnemies ps).isEmpty || (alivePlayer ps).isNone

/-- `choosePlayerAction`: 70% attack, then 20% "special" (also an attack
action) gated on `mana ≥ 15`, else defend.  `r` is the `Math.random()` draw. -/
def choosePlayerAction (player target : Character) (r : ℚ) : CombatAction :=
  if r < mkRat 7 10 then
    { actionType := .attack, actor := player.name, target := some target.name }
  else if r < mkRat 9 10 ∧ player.stats.mana ≥ 15 then
    { actionType := .attack, actor := player.name, target := some target.name }
  else
    { actionType := .defend, actor := player.name }

/-- `chooseEnemyAction`: 80% attack, else defend. -/
def chooseEnemyAction (enemy target : Character) (r : ℚ) : CombatAction :=
  if r < mkRat 8 10 then
    { actionType := .attack, actor := enemy.name, target := some target.name }
  else
    { actionType := .defend, actor := enemy.name }

/-- `executeAction(action)`.  Resolves actor and target by name; an `attack`
action with a resolvable target calls `actor.attack(target)` (which may
throw, propagating out) and records the damage in the logged action; every
non-throwing path appends the action to `combatLog` unless the actor was not
found (the early `return`). -/
def executeAction (st : CombatState) (action : CombatAction) :
    Except CombatError CombatState :=
  match findCharacterByName st.participants action.actor with
  | none => .ok st
  | some actor =>
    match action.actionType with
    | .attack =>
      match action.target with
      | some targetName =>
        match findCharacterByName st.participants targetName with
        | some target =>
          let (r, st1) := drawRand st
          match Character.attack actor target r with
          | (_, .error e) => .error e
          | (target', .ok damage) =>
            let logged := { action with damage := some damage }
            .ok { st1 with
                  participants := updateCharacter st1.participants targetName target',
                  combatLog := st1.combatLog ++ [logged] }
        | none => .ok { st with combatLog := st.combatLog ++ [action] }
      | none => .ok { st with combatLog := st.combatLog ++ [action] }
    | _ => .ok { st with combatLog := st.combatLog ++ [action] }

/-- `playerTurn(player)`: target the first alive enemy (if none, return),
choose an action with one random draw, execute it. -/
def playerTurn (st : CombatState) (player : Character) :
    Except CombatError CombatState :=
  match aliveEnemies st.participants with
  | [] => .ok st
  | targetPart :: _ =>
    let (r, st1) := drawRand st
    executeAction st1 (choosePlayerAction player targetPart.character r)

/-- `enemyTurn(enemy)`: return unless the player participant exists and is
alive, else choose an action with one random draw and execute it. -/
def enemyTurn (st : CombatState) (enemy : Character) :
    Except CombatError CombatState :=
  match st.participants.find? (fun p => p.isPlayer) with
  | none => .ok st
  | some pp =>
    if ¬ pp.character.isAlive then .ok st
    else
      let (r, st1) := drawRand st
      executeAction st1 (chooseEnemyAction enemy pp.character r)

/-- One iteration of the `startCombat` while-loop body: act with the current
participant (if alive), then `nextTurn()`; a thrown error propagates before
`nextTurn()` runs. -/
def combatTurn (st : CombatState) : Except CombatError CombatState :=
  match
    (match st.participants.get? (st.currentTurn % st.participants.length) with
      | none => Except.ok st
      | some cur =>
        if cur.character.isAlive then
          if cur.isPlayer then playerTurn st cur.character
          else enemyTurn st cur.character
        else Except.ok st) with
  | .error e => .error e
  | .ok st' => .ok { st' with currentTurn := st'.currentTurn + 1 }

/-- `calculateExperience`: sum of `level * 25` over defeated adversaries. -/
def calculateExperience (ps : List Participant) : Nat :=
  (ps.filter (fun p => !p.isPlayer && !p.character.isAlive)).foldl
    (fun exp p => exp + p.character.level * 25) 0

/-- The loot table entries pushed by `generateLoot` (plain object literals;
they do not declare `stackable`, hence `stackable := false`). -/
def lootPotion : Item :=
  { id := "potion", name := "Health Potion", itemType := "consumable",
    quantity := 1, value := 50, stackable := false, maxStack := 0 }

/-- Second loot table entry. -/
def lootSword : Item :=
  { id := "sword", name := "Iron Sword", itemType := "weapon",
    quantity := 1, value := 100, stackable := false, maxStack := 0 }

/-- `generateLoot`: one `Math.random()` draw `r`, a potion when `r < 0.3`,
additionally a sword when `r < 0.1`. -/
def generateLoot (r : ℚ) : List Item :=
  (if r < mkRat 3 10 then [lootPotion] else []) ++ (if r < mkRat 1 10 then [lootSword] else [])

/-- `getCombatResult`, as a function of the participant list, the action log
and the `Math.random()` draw consumed by `generateLoot`. -/
def getCombatResult (ps : List Participant) (log : List CombatAction) (lootRand : ℚ) :
    CombatResult :=
  let enemies := aliveEnemies ps
  let playerPart := alivePlayer ps
  let winnerExp : Option String × Nat :=
    match playerPart with
    | some pp => if enemies.isEmpty then (some pp.character.name, calculateExperience ps)
                 else (none, 0)
    | none => ((enemies.head?).map (fun p => p.character.name), 0)
  { actions := log, winner := winnerExp.1, experience := winnerExp.2,
    loot := generateLoot lootRand }

/-- The `startCombat` while-loop with explicit fuel (the loop need not
terminate, e.g. on an all-defend draw stream): `ok none` means the fuel ran
out with combat still undecided, `ok (some (result, st))` means the loop
exited and `getCombatResult` produced `result` in final state `st`. -/
def runCombat (fuel : ℕ) (st : CombatState) :
    Except CombatError (Option (CombatResult × CombatState)) :=
  match fuel with
  | 0 => .ok none
  | fuel' + 1 =>
    if isCombatOver st.participants then
      let (r, st1) := drawRand st
      .ok (some (getCombatResult st1.participants st1.combatLog r, st1))
    else
      match combatTurn st with
      | .error e => .error e
      | .ok st' => runCombat fuel' st'

/-- Stable insert for the descending-by-speed sort: `p` goes before the
first entry strictly slower than it, after all earlier entries of equal or
greater speed (insertion order preserved on ties). -/
def insertBySpeed (p : Participant) : List Participant → List Participant
  | [] => [p]
  | q :: rest =>
    if q.character.stats.speed < p.character.stats.speed then p :: q :: rest
    else q :: insertBySpeed p rest

/-- Stable sort descending by speed, modelling
`participants.sort((a, b) => b.character.stats.speed - a.character.stats.speed)`
(`Array.prototype.sort` is stable, so any stable descending-by-speed sort
produces the same list). -/
def sortBySpeed (ps : List Participant) : List Participant :=
  ps.foldr insertBySpeed []

/-- The `CombatSystem` constructor: player plus enemies, tagged with side
flags and sorted descending by speed. -/
def mkCombatState (player : Character) (enemies : List Character) (rng : ℕ → ℚ) :
    CombatState :=
  let ps := { character := player, isPlayer := true } ::
    enemies.map (fun e => { character := e, isPlayer := false })
  { participants := sortBySpeed ps,
    currentTurn := 0, combatLog := [], rng := rng, rngIdx := 0 }

end CombatSystem

/-! ## Inventory lemmas -/

namespace Inventory

theorem findItem_some_id {items : List Item} {key : String} {ex : Item}
    (h : findItem items key = some ex) : ex.id = key := by
  unfold findItem at h
  have := List.find?_some h
  simpa using this

theorem findItem_of_not_mem {items : List Item} {key : String}
    (h : key ∉ items.map Item.id) : findItem items key = none := by
  unfold findItem
  apply List.find?_eq_none.mpr
  intro x hx
  simp only [decide_eq_true_eq]
  intro hid
  exact h (List.mem_map.mpr ⟨x, hx, hid⟩)

theorem find_mapSet_self (items : List Item) (key : String) (v : Item)
    (hv : v.id = key) : findItem (mapSet items key v) key = some v := by
  induction items with
  | nil => simp [mapSet, findItem, List.find?, hv]
  | cons x xs ih =>
    by_cases hx : x.id = key
    · simp [mapSet, hx, findItem, List.find?, hv]
    · simpa [mapSet, hx, findItem, List.find?] using ih

theorem length_mapSet_of_found {items : List Item} {key : String} {ex : Item}
    (h : findItem items key = some ex) (v : Item) :
    (mapSet items key v).length = items.length := by
  induction items with
  | nil => simp [findItem, List.find?] at h
  | cons x xs ih =>
    by_cases hx : x.id = key
    · simp [mapSet, hx]
    · simp [findItem, List.find?, hx] at h
      simpa [mapSet, hx] using ih h

theorem length_mapSet_of_none {items : List Item} {key : String}
    (h : findItem items key = none) (v : Item) :
    (mapSet items key v).length = items.length + 1 := by
  induction items with
  | nil => simp [mapSet]
  | cons x xs ih =>
    by_cases hx : x.id = key
    · simp [findItem, List.find?, hx] at h
    · have h' : findItem xs key = none := by
        simp only [findItem, List.find?] at h ⊢
        rw [decide_eq_false hx] at h
        simpa using h
      simpa [mapSet, hx] using ih h'

theorem find_mapDelete_of_nodup {items : List Item} {key : String}
    (h : (items.map Item.id).Nodup) :
    findItem (mapDelete items key) key = none := by
  induction items with
  | nil => simp [mapDelete, findItem, List.find?]
  | cons x xs ih =>
    simp only [List.map_cons, List.nodup_cons] at h
    by_cases hx : x.id = key
    · subst hx
      rw [show mapDelete (x :: xs) x.id = xs from by simp [mapDelete]]
      exact findItem_of_not_mem h.1
    · simpa [mapDelete, hx, findItem, List.find?] using ih h.2

end Inventory

/-! ## Inventory claim theorems -/

/-- **C1.** For every inventory and every `addItem(item)` call where an entry
with the same id already exists and is stack-capable: if
`existing.quantity + item.quantity ≤ existing.maxStack`, the call returns true
and the stored quantity becomes the sum of the two quantities; otherwise the
call returns false and the inventory (in particular the stored quantity) is
left unchanged — all-or-nothing, no partial merge. -/
theorem claim_C1_stack_merge_all_or_nothing (inv : Inventory) (item ex : Item)
    (hfound : Inventory.findItem inv.items item.id = some ex)
    (hstack : ex.stackable = true) :
    (ex.quantity + item.quantity ≤ ex.maxStack →
      (Inventory.addItem inv item).2 = true ∧
      (Inventory.findItem (Inventory.addItem inv item).1.items item.id).map Item.quantity
        = some (ex.quantity + item.quantity)) ∧
    (ex.quantity + item.quantity > ex.maxStack →
      (Inventory.addItem inv item).2 = false ∧
      (Inventory.addItem inv item).1 = inv) := by
  have hid : ex.id = item.id := Inventory.findItem_some_id hfound
  constructor
  · intro hfits
    have heq : Inventory.addItem inv item = ({ inv with items := Inventory.mapSet inv.items item.id ({ ex with quantity := ex.quantity + item.quantity }) }, true) := by
      simp [Inventory.addItem, hfound, hstack, hfits]
    rw [heq]
    refine ⟨rfl, ?_⟩
    rw [Inventory.find_mapSet_self _ _ _ (by simpa using hid)]
    rfl
  · intro hover
    have heq : Inventory.addItem inv item = (inv, false) := by
      simp [Inventory.addItem, hfound, hstack, not_le.mpr hover]
    rw [heq]
    exact ⟨rfl, rfl⟩

/-- A concrete 50-potion stack used by the inventory witnesses. -/
def potionStack : Item :=
  { id := "p", name := "Potion", itemType := "consumable",
    quantity := 50, value := 5, stackable := true, maxStack := 99 }

/-- Witness for C1 at a concrete input: a 50-potion stack with `maxStack = 99`
accepts adding 40 more (stored quantity 90) and rejects adding 60. -/
theorem claim_C1_stack_merge_all_or_nothing_witness :
    (Inventory.addItem { items := [potionStack], maxSlots := 20 }
      ({ potionStack with quantity := 40 })).2 = true ∧
    (Inventory.findItem (Inventory.addItem { items := [potionStack], maxSlots := 20 }
      ({ potionStack with quantity := 40 })).1.items "p").map Item.quantity = some 90 ∧
    (Inventory.addItem { items := [potionStack], maxSlots := 20 }
      ({ potionStack with quantity := 60 })).2 = false ∧
    (Inventory.addItem { items := [potionStack], maxSlots := 20 }
      ({ potionStack with quantity := 60 })).1 = { items := [potionStack], maxSlots := 20 } := by
  have h1 := (claim_C1_stack_merge_all_or_nothing { items := [potionStack], maxSlots := 20 }
    ({ potionStack with quantity := 40 }) potionStack (by decide) (by decide)).1 (by decide)
  have h2 := (claim_C1_stack_merge_all_or_nothing { items := [potionStack], maxSlots := 20 }
    ({ potionStack with quantity := 60 }) potionStack (by decide) (by decide)).2 (by decide)
  exact ⟨h1.1, by simpa using h1.2, h2.1, h2.2⟩

/-- **C4.** For every stored item with quantity `q ≥ 1` and requested amount
`r ≥ 1`: `removeItem(id, r)` with `r < q` leaves the stored quantity at
`q - r` and returns an item with quantity exactly `r` without deleting the
slot; with `r ≥ q` it deletes the slot and returns an item carrying the
original full quantity `q`; `removeItem` on an absent id returns the
null/not-found result and changes nothing.  (The delete part assumes the
`Map` key-uniqueness invariant, stated as `Nodup` on the ids.) -/
theorem claim_C4_remove_conservation :
    (∀ (inv : Inventory) (itemId : String) (item : Item) (r : Int),
      Inventory.findItem inv.items itemId = some item →
      1 ≤ item.quantity → 1 ≤ r → r < item.quantity →
      (Inventory.removeItem inv itemId r).2 = some ({ item with quantity := r }) ∧
      Inventory.findItem (Inventory.removeItem inv itemId r).1.items itemId
        = some ({ item with quantity := item.quantity - r })) ∧
    (∀ (inv : Inventory) (itemId : String) (item : Item) (r : Int),
      (inv.items.map Item.id).Nodup →
      Inventory.findItem inv.items itemId = some item →
      1 ≤ item.quantity → 1 ≤ r → item.quantity ≤ r →
      (Inventory.removeItem inv itemId r).2 = some item ∧
      Inventory.findItem (Inventory.removeItem inv itemId r).1.items itemId = none) ∧
    (∀ (inv : Inventory) (itemId : String) (r : Int),
      Inventory.findItem inv.items itemId = none →
      (Inventory.removeItem inv itemId r).2 = none ∧
      (Inventory.removeItem inv itemId r).1 = inv) := by
  refine ⟨?_, ?_, ?_⟩
  · intro inv itemId item r hfound _ _ hlt
    have hid : item.id = itemId := Inventory.findItem_some_id hfound
    have heq : Inventory.removeItem inv itemId r = ({ inv with items := Inventory.mapSet inv.items itemId ({ item with quantity := item.quantity - r }) }, some ({ item with quantity := r })) := by
      simp [Inventory.removeItem, hfound, not_le.mpr hlt]
    rw [heq]
    exact ⟨rfl, Inventory.find_mapSet_self _ _ _ (by simpa using hid)⟩
  · intro inv itemId item r hnodup hfound _ _ hle
    have heq : Inventory.removeItem inv itemId r = ({ inv with items := Inventory.mapDelete inv.items itemId }, some item) := by
      simp [Inventory.removeItem, hfound, hle]
    rw [heq]
    exact ⟨rfl, Inventory.find_mapDelete_of_nodup hnodup⟩
  · intro inv itemId r hnone
    simp [Inventory.removeItem, hnone]

/-- Witness for C4 at concrete inputs: removing 10 from a 50-stack keeps the
slot at 40 and returns 10; removing 60 deletes the slot and returns the full
50; removing from an absent id returns `none` and changes nothing. -/
theorem claim_C4_remove_conservation_witness :
    ((Inventory.removeItem { items := [potionStack], maxSlots := 20 } "p" 10).2
        = some ({ potionStack with quantity := 10 }) ∧
      Inventory.findItem
        (Inventory.removeItem { items := [potionStack], maxSlots := 20 } "p" 10).1.items "p"
        = some ({ potionStack with quantity := 40 })) ∧
    ((Inventory.removeItem { items := [potionStack], maxSlots := 20 } "p" 60).2
        = some potionStack ∧
      Inventory.findItem
        (Inventory.removeItem { items := [potionStack], maxSlots := 20 } "p" 60).1.items "p"
        = none) ∧
    ((Inventory.removeItem { items := [potionStack], maxSlots := 20 } "q" 1).2 = none ∧
      (Inventory.removeItem { items := [potionStack], maxSlots := 20 } "q" 1).1
        = { items := [potionStack], maxSlots := 20 }) := by
  refine ⟨?_, ?_, ?_⟩
  · have h := claim_C4_remove_conservation.1 { items := [potionStack], maxSlots := 20 }
      "p" potionStack 10 (by decide) (by decide) (by decide) (by decide)
    exact ⟨h.1, h.2⟩
  · have h := claim_C4_remove_conservation.2.1 { items := [potionStack], maxSlots := 20 }
      "p" potionStack 60 (by decide) (by decide) (by decide) (by decide) (by decide)
    exact ⟨h.1, h.2⟩
  · exact claim_C4_remove_conservation.2.2 { items := [potionStack], maxSlots := 20 }
      "q" 1 (by decide)

/-- **C10.** For every inventory that is not full, calling `addItem` with an
item whose id equals that of an already-stored non-stack-capable entry
returns true and silently replaces the stored entry with the new item in the
same slot: the slot count is unchanged and the previously stored item is
discarded (the lookup now yields the new item) rather than merged, kept
alongside, or rejected. -/
theorem claim_C10_same_id_not_stackable_replaces (inv : Inventory) (item ex : Item)
    (hfound : Inventory.findItem inv.items item.id = some ex)
    (hnostack : ex.stackable = false)
    (hnotfull : Inventory.isFull inv = false) :
    (Inventory.addItem inv item).2 = true ∧
    (Inventory.addItem inv item).1.items = Inventory.mapSet inv.items item.id item ∧
    Inventory.slotCount (Inventory.addItem inv item).1 = Inventory.slotCount inv ∧
    Inventory.findItem (Inventory.addItem inv item).1.items item.id = some item := by
  have hlt : inv.items.length < inv.maxSlots := by
    simpa [Inventory.isFull, not_le] using hnotfull
  have heq : Inventory.addItem inv item = ({ inv with items := Inventory.mapSet inv.items item.id item }, true) := by
    simp [Inventory.addItem, hfound, hnostack, Inventory.addNewSlot, not_le.mpr hlt]
  rw [heq]
  refine ⟨rfl, rfl, ?_, Inventory.find_mapSet_self _ _ _ rfl⟩
  simpa [Inventory.slotCount] using Inventory.length_mapSet_of_found hfound item

/-- Witness for C10 at a concrete input: re-adding a weapon id ("sw") over a
stored non-stackable weapon succeeds and replaces the old entry. -/
theorem claim_C10_same_id_not_stackable_replaces_witness :
    (Inventory.addItem
        { items := [{ id := "sw", name := "Old Sword", itemType := "weapon", quantity := 1, value := 10, stackable := false, maxStack := 0 }], maxSlots := 2 }
        ({ id := "sw", name := "New Sword", itemType := "weapon", quantity := 3, value := 90, stackable := false, maxStack := 0 })).2 = true ∧
    Inventory.slotCount (Inventory.addItem
        { items := [{ id := "sw", name := "Old Sword", itemType := "weapon", quantity := 1, value := 10, stackable := false, maxStack := 0 }], maxSlots := 2 }
        ({ id := "sw", name := "New Sword", itemType := "weapon", quantity := 3, value := 90, stackable := false, maxStack := 0 })).1 = 1 ∧
    Inventory.findItem (Inventory.addItem
        { items := [{ id := "sw", name := "Old Sword", itemType := "weapon", quantity := 1, value := 10, stackable := false, maxStack := 0 }], maxSlots := 2 }
        ({ id := "sw", name := "New Sword", itemType := "weapon", quantity := 3, value := 90, stackable := false, maxStack := 0 })).1.items "sw"
      = some ({ id := "sw", name := "New Sword", itemType := "weapon", quantity := 3, value := 90, stackable := false, maxStack := 0 }) := by
  have h := claim_C10_same_id_not_stackable_replaces
    { items := [{ id := "sw", name := "Old Sword", itemType := "weapon", quantity := 1, value := 10, stackable := false, maxStack := 0 }], maxSlots := 2 }
    ({ id := "sw", name := "New Sword", itemType := "weapon", quantity := 3, value := 90, stackable := false, maxStack := 0 })
    ({ id := "sw", name := "Old Sword", itemType := "weapon", quantity := 1, value := 10, stackable := false, maxStack := 0 })
    (by decide) (by decide) (by decide)
  exact ⟨h.1, by rw [h.2.2.1]; rfl, by simpa using h.2.2.2⟩

/-- `addItem` never changes `maxSlots`. -/
theorem addItem_maxSlots (inv : Inventory) (item : Item) :
    (Inventory.addItem inv item).1.maxSlots = inv.maxSlots := by
  unfold Inventory.addItem Inventory.addNewSlot
  cases h : Inventory.findItem inv.items item.id with
  | none => dsimp only; split <;> rfl
  | some ex =>
    dsimp only
    split
    · split <;> rfl
    · split <;> rfl

/-- One `addItem` call preserves `slotCount ≤ maxSlots`. -/
theorem addItem_slotCount_le (inv : Inventory) (item : Item)
    (h : Inventory.slotCount inv ≤ inv.maxSlots) :
    Inventory.slotCount (Inventory.addItem inv item).1 ≤ inv.maxSlots := by
  unfold Inventory.addItem
  cases hfind : Inventory.findItem inv.items item.id with
  | some ex =>
    dsimp only
    split
    · split
      · simpa [Inventory.slotCount, Inventory.length_mapSet_of_found hfind] using h
      · exact h
    · unfold Inventory.addNewSlot
      split
      · exact h
      · simpa [Inventory.slotCount, Inventory.length_mapSet_of_found hfind] using h
  | none =>
    dsimp only
    unfold Inventory.addNewSlot
    split
    · exact h
    · next hlt =>
      have : inv.items.length < inv.maxSlots := Nat.lt_of_not_le (by simpa using hlt)
      simpa [Inventory.slotCount, Inventory.length_mapSet_of_none hfind] using this

/-- Folding a whole sequence of `addItem` calls over an inventory. -/
def addAll (inv : Inventory) (toAdd : List Item) : Inventory :=
  toAdd.foldl (fun i it => (Inventory.addItem i it).1) inv

theorem addAll_maxSlots (inv : Inventory) (toAdd : List Item) :
    (addAll inv toAdd).maxSlots = inv.maxSlots := by
  induction toAdd generalizing inv with
  | nil => rfl
  | cons x xs ih =>
    simpa [addAll, List.foldl_cons, addItem_maxSlots] using
      (ih (Inventory.addItem inv x).1).trans (addItem_maxSlots inv x)

/-- **C3.** For every inventory with slot count equal to `maxSlots`, `addItem`
of an item whose id is not already stored returns false; and no sequence of
`addItem` calls ever makes the number of stored slots exceed `maxSlots`
(starting from any inventory satisfying the bound, in particular the empty
one the constructor builds). -/
theorem claim_C3_slot_capacity :
    (∀ (inv : Inventory) (item : Item),
      Inventory.slotCount inv = inv.maxSlots →
      Inventory.findItem inv.items item.id = none →
      (Inventory.addItem inv item).2 = false) ∧
    (∀ (inv : Inventory) (toAdd : List Item),
      Inventory.slotCount inv ≤ inv.maxSlots →
      Inventory.slotCount (addAll inv toAdd) ≤ inv.maxSlots) := by
  constructor
  · intro inv item hfull hnone
    simp [Inventory.addItem, hnone, Inventory.addNewSlot,
      show inv.items.length ≥ inv.maxSlots from le_of_eq hfull.symm]
  · intro inv toAdd h
    induction toAdd generalizing inv with
    | nil => exact h
    | cons x xs ih =>
      have hstep := addItem_slotCount_le inv x h
      have := ih (Inventory.addItem inv x).1 (by rwa [addItem_maxSlots])
      simpa [addAll, List.foldl_cons, addItem_maxSlots inv x] using this

/-- Witness for C3: a full one-slot inventory rejects a new id, and adding
three items to an empty one-slot inventory stores at most one slot. -/
theorem claim_C3_slot_capacity_witness :
    (Inventory.addItem { items := [potionStack], maxSlots := 1 }
      ({ id := "q", name := "Other", itemType := "misc", quantity := 1, value := 1, stackable := false, maxStack := 0 })).2 = false ∧
    Inventory.slotCount (addAll { items := [], maxSlots := 1 }
      [potionStack, { id := "q", name := "Other", itemType := "misc", quantity := 1, value := 1, stackable := false, maxStack := 0 }, { potionStack with id := "r" }]) ≤ 1 := by
  constructor
  · exact claim_C3_slot_capacity.1 { items := [potionStack], maxSlots := 1 }
      ({ id := "q", name := "Other", itemType := "misc", quantity := 1, value := 1, stackable := false, maxStack := 0 }) (by decide) (by decide)
  · exact claim_C3_slot_capacity.2 { items := [], maxSlots := 1 }
      [potionStack, { id := "q", name := "Other", itemType := "misc", quantity := 1, value := 1, stackable := false, maxStack := 0 }, { potionStack with id := "r" }] (by decide)

/-! ## Character claim theorems -/

/-- **C8.** For every character and every damage argument `d ≤ 0`,
`takeDamage(d)` raises the validation error synchronously and leaves the
character's state completely unchanged (the returned character is the input
character); for every `d > 0` no validation error is raised. -/
theorem claim_C8_takeDamage_validation :
    (∀ (c : Character) (d : Int), d ≤ 0 →
      Character.takeDamage c d =
        (c, Except.error (CombatError.validationFailed "takeDamage"
          "Damage must be a positive number"))) ∧
    (∀ (c : Character) (d : Int), 0 < d →
      ∃ c' dmg, Character.takeDamage c d = (c', Except.ok dmg)) := by
  constructor
  · intro c d hd
    simp [Character.takeDamage, hd]
  · intro c d hd
    unfold Character.takeDamage
    rw [if_neg (not_le.mpr hd)]
    exact ⟨_, _, rfl⟩

/-- Witness for C8: `takeDamage 0` on a concrete character errors and keeps
the character; `takeDamage 7` succeeds. -/
theorem claim_C8_takeDamage_validation_witness :
    (Character.takeDamage
        { name := "Hero", stats := { health := 100, maxHealth := 100, mana := 0, maxMana := 0, attack := 20, defense := 10, speed := 5 }, level := 1 } 0 =
      ({ name := "Hero", stats := { health := 100, maxHealth := 100, mana := 0, maxMana := 0, attack := 20, defense := 10, speed := 5 }, level := 1 },
        Except.error (CombatError.validationFailed "takeDamage" "Damage must be a positive number"))) ∧
    (∃ c' dmg, Character.takeDamage
        { name := "Hero", stats := { health := 100, maxHealth := 100, mana := 0, maxMana := 0, attack := 20, defense := 10, speed := 5 }, level := 1 } 7 =
      (c', Except.ok dmg)) :=
  ⟨claim_C8_takeDamage_validation.1 _ 0 (by decide),
   claim_C8_takeDamage_validation.2 _ 7 (by decide)⟩

/-- **C9.** For every character whose stats satisfy
`0 ≤ health ≤ maxHealth`, every `takeDamage` call with positive damage and
every `heal` call with non-negative amount preserves
`0 ≤ health ≤ maxHealth` (with `maxHealth` itself unchanged): `takeDamage`
clamps health at 0 from below and `heal` never raises health above
`maxHealth`. -/
theorem claim_C9_health_invariant :
    (∀ (c : Character) (d : Int), 0 ≤ c.stats.health →
      c.stats.health ≤ c.stats.maxHealth → 0 < d →
      0 ≤ (Character.takeDamage c d).1.stats.health ∧
      (Character.takeDamage c d).1.stats.health ≤ (Character.takeDamage c d).1.stats.maxHealth ∧
      (Character.takeDamage c d).1.stats.maxHealth = c.stats.maxHealth) ∧
    (∀ (c : Character) (a : Int), 0 ≤ c.stats.health →
      c.stats.health ≤ c.stats.maxHealth → 0 ≤ a →
      0 ≤ (Character.heal c a).1.stats.health ∧
      (Character.heal c a).1.stats.health ≤ (Character.heal c a).1.stats.maxHealth ∧
      (Character.heal c a).1.stats.maxHealth = c.stats.maxHealth) := by
  constructor
  · intro c d h0 hmax hd
    simp only [Character.takeDamage, if_neg (not_le.mpr hd)]
    have h1 : (1 : Int) ≤ max 1 (d - c.stats.defense) := le_max_left 1 _
    exact ⟨le_max_left 0 _, max_le (by omega) (by omega), by trivial⟩
  · intro c a h0 hmax ha
    simp only [Character.heal]
    have hmin : min a (c.stats.maxHealth - c.stats.health) ≤ c.stats.maxHealth - c.stats.health :=
      min_le_right _ _
    have hmin0 : 0 ≤ min a (c.stats.maxHealth - c.stats.health) :=
      le_min ha (by omega)
    exact ⟨by omega, by omega, by trivial⟩

/-- Witness for C9: damage 30 against 15 defense takes a 100/120-health
character to 85; healing 50 takes it back to at most 120. -/
theorem claim_C9_health_invariant_witness :
    (0 ≤ (Character.takeDamage
        { name := "W", stats := { health := 100, maxHealth := 120, mana := 0, maxMana := 0, attack := 0, defense := 15, speed := 0 }, level := 1 } 30).1.stats.health ∧
      (Character.takeDamage
        { name := "W", stats := { health := 100, maxHealth := 120, mana := 0, maxMana := 0, attack := 0, defense := 15, speed := 0 }, level := 1 } 30).1.stats.health ≤
      (Character.takeDamage
        { name := "W", stats := { health := 100, maxHealth := 120, mana := 0, maxMana := 0, attack := 0, defense := 15, speed := 0 }, level := 1 } 30).1.stats.maxHealth) ∧
    (0 ≤ (Character.heal
        { name := "W", stats := { health := 100, maxHealth := 120, mana := 0, maxMana := 0, attack := 0, defense := 15, speed := 0 }, level := 1 } 50).1.stats.health ∧
      (Character.heal
        { name := "W", stats := { health := 100, maxHealth := 120, mana := 0, maxMana := 0, attack := 0, defense := 15, speed := 0 }, level := 1 } 50).1.stats.health ≤
      (Character.heal
        { name := "W", stats := { health := 100, maxHealth := 120, mana := 0, maxMana := 0, attack := 0, defense := 15, speed := 0 }, level := 1 } 50).1.stats.maxHealth) := by
  constructor
  · have h := claim_C9_health_invariant.1
      { name := "W", stats := { health := 100, maxHealth := 120, mana := 0, maxMana := 0, attack := 0, defense := 15, speed := 0 }, level := 1 }
      30 (by decide) (by decide) (by decide)
    exact ⟨h.1, h.2.1⟩
  · have h := claim_C9_health_invariant.2
      { name := "W", stats := { health := 100, maxHealth := 120, mana := 0, maxMana := 0, attack := 0, defense := 15, speed := 0 }, level := 1 }
      50 (by decide) (by decide) (by decide)
    exact ⟨h.1, h.2.1⟩

/-- A living attacker with attack stat 0 (non-negative stats). -/
def pacifist : Character :=
  { name := "Pacifist",
    stats := { health := 10, maxHealth := 10, mana := 0, maxMana := 0,
               attack := 0, defense := 0, speed := 1 }, level := 1 }

/-- A target with non-negative stats and defense 0. -/
def trainingDummy : Character :=
  { name := "Dummy",
    stats := { health := 10, maxHealth := 10, mana := 0, maxMana := 0,
               attack := 0, defense := 0, speed := 1 }, level := 1 }

/-- **C2, counterexample.** The claim quantifies over all attacker/target
pairs with non-negative stats, so it covers a living attacker with
`attack = 0`.  There (draw `1/2 ≥ 0.10`, defense `0`) it predicts resolved
damage `max(1, 0 - 0) = 1`; the code instead computes `damage = 0`, and the
`@validate` wrapper of `takeDamage` throws "Damage must be a positive
number", so the attack does not resolve and the target is untouched. -/
theorem claim_C2_counterexample :
    Character.attack pacifist trainingDummy (mkRat 1 2) =
      (trainingDummy, Except.error (CombatError.validationFailed "takeDamage"
        "Damage must be a positive number")) := by
  have hnc : ¬ (mkRat 1 2 < mkRat 1 10) := by decide
  simp [Character.attack, Character.isAlive, Character.takeDamage, pacifist,
    trainingDummy, hnc]

/-- **C2, amended.** For every *living* attacker with attack stat ≥ 1 and
every target, an attack resolves to damage `max(1, 2*attack - defense)` when
the random draw is below 0.10 and `max(1, attack - defense)` otherwise; the
actual damage applied is always ≥ 1 even when `defense ≥ attack`;
`takeDamage` returns this post-defense value (not the raw roll); and the
target's health is clamped at 0 (`health' = max 0 (health - actualDamage)`,
hence never negative). -/
theorem claim_C2_damage_formula (a t : Character) (r : ℚ)
    (halive : 0 < a.stats.health) (hatk : 1 ≤ a.stats.attack) :
    (Character.attack a t r).2 =
      Except.ok (if r < mkRat 1 10 then max 1 (2 * a.stats.attack - t.stats.defense)
                 else max 1 (a.stats.attack - t.stats.defense)) ∧
    (1 : Int) ≤ (if r < mkRat 1 10 then max 1 (2 * a.stats.attack - t.stats.defense)
                 else max 1 (a.stats.attack - t.stats.defense)) ∧
    (Character.attack a t r).1.stats.health =
      max 0 (t.stats.health -
        (if r < mkRat 1 10 then max 1 (2 * a.stats.attack - t.stats.defense)
         else max 1 (a.stats.attack - t.stats.defense))) ∧
    0 ≤ (Character.attack a t r).1.stats.health := by
  have halive' : a.isAlive = true := by
    simp [Character.isAlive, halive]
  have hkey : Character.attack a t r =
      Character.takeDamage t (if r < mkRat 1 10 then a.stats.attack * 2 else a.stats.attack) := by
    simp [Character.attack, halive']
  have hdpos : ¬ (if r < mkRat 1 10 then a.stats.attack * 2 else a.stats.attack) ≤ 0 := by
    split <;> omega
  have hmax : max 1 ((if r < mkRat 1 10 then a.stats.attack * 2 else a.stats.attack) - t.stats.defense) = (if r < mkRat 1 10 then max 1 (2 * a.stats.attack - t.stats.defense) else max 1 (a.stats.attack - t.stats.defense)) := by
    by_cases hcrit : r < mkRat 1 10
    · rw [if_pos hcrit, if_pos hcrit, mul_comm]
    · rw [if_neg hcrit, if_neg hcrit]
  rw [hkey]
  simp only [Character.takeDamage, if_neg hdpos]
  rw [hmax]
  refine ⟨rfl, ?_, rfl, le_max_left 0 _⟩
  split <;> exact le_max_left 1 _

/-- Witness for the amended C2: a 25-attack living warrior against a
40-defense target, non-critical draw `1/2`: damage `max(1, 25-40) = 1`. -/
theorem claim_C2_damage_formula_witness :
    (Character.attack
        { name := "W", stats := { health := 120, maxHealth := 120, mana := 0, maxMana := 0, attack := 25, defense := 0, speed := 8 }, level := 1 }
        { name := "T", stats := { health := 80, maxHealth := 80, mana := 0, maxMana := 0, attack := 0, defense := 40, speed := 1 }, level := 1 }
        (mkRat 1 2)).2 = Except.ok 1 ∧
    (Character.attack
        { name := "W", stats := { health := 120, maxHealth := 120, mana := 0, maxMana := 0, attack := 25, defense := 0, speed := 8 }, level := 1 }
        { name := "T", stats := { health := 80, maxHealth := 80, mana := 0, maxMana := 0, attack := 0, defense := 40, speed := 1 }, level := 1 }
        (mkRat 1 2)).1.stats.health = 79 := by
  have h := claim_C2_damage_formula
    { name := "W", stats := { health := 120, maxHealth := 120, mana := 0, maxMana := 0, attack := 25, defense := 0, speed := 8 }, level := 1 }
    { name := "T", stats := { health := 80, maxHealth := 80, mana := 0, maxMana := 0, attack := 0, defense := 40, speed := 1 }, level := 1 }
    (mkRat 1 2) (by decide) (by decide)
  refine ⟨?_, ?_⟩
  · rw [h.1]
    norm_num
  · rw [h.2.2.1]
    norm_num

/-! ## Combat result claim theorems -/

theorem calculateExperience_eq_sum (ps : List Participant) :
    CombatSystem.calculateExperience ps =
      ((ps.filter (fun p => !p.isPlayer && !p.character.isAlive)).map
        (fun p => p.character.level * 25)).sum := by
  unfold CombatSystem.calculateExperience
  generalize ps.filter (fun p => !p.isPlayer && !p.character.isAlive) = l
  suffices h : ∀ (l : List Participant) (n : ℕ),
      l.foldl (fun exp p => exp + p.character.level * 25) n =
        n + (l.map (fun p => p.character.level * 25)).sum by
    simpa using h l 0
  intro l
  induction l with
  | nil => intro n; simp
  | cons x xs ih => intro n; simp [List.foldl_cons, ih]; ring

/-- **C6.** For every combat session that terminates with the primary alive
and zero living adversaries, the winner is the primary and the experience
award equals the sum over non-living adversaries of `level * 25`; in
particular with two defeated adversaries at levels 3 and 5 the experience
equals `3*25 + 5*25 = 200`. -/
theorem claim_C6_victory_experience :
    (∀ (ps : List Participant) (log : List CombatAction) (r : ℚ) (pp : Participant),
      CombatSystem.alivePlayer ps = some pp →
      CombatSystem.aliveEnemies ps = [] →
      (CombatSystem.getCombatResult ps log r).winner = some pp.character.name ∧
      (CombatSystem.getCombatResult ps log r).experience =
        ((ps.filter (fun p => !p.isPlayer && !p.character.isAlive)).map
          (fun p => p.character.level * 25)).sum) ∧
    (CombatSystem.getCombatResult
        [ { character := { name := "Hero", stats := { health := 50, maxHealth := 100, mana := 0, maxMana := 0, attack := 20, defense := 10, speed := 9 }, level := 4 }, isPlayer := true },
          { character := { name := "Orc", stats := { health := 0, maxHealth := 60, mana := 0, maxMana := 0, attack := 10, defense := 5, speed := 6 }, level := 3 }, isPlayer := false },
          { character := { name := "Troll", stats := { health := 0, maxHealth := 80, mana := 0, maxMana := 0, attack := 12, defense := 6, speed := 4 }, level := 5 }, isPlayer := false } ]
        [] (mkRat 1 2)).experience = 200 := by
  constructor
  · intro ps log r pp hp he
    unfold CombatSystem.getCombatResult
    rw [hp, he]
    exact ⟨rfl, calculateExperience_eq_sum ps⟩
  · have hnl : ¬ (mkRat 1 2 < mkRat 3 10) := by decide
    have hns : ¬ (mkRat 1 2 < mkRat 1 10) := by decide
    simp [CombatSystem.getCombatResult, CombatSystem.alivePlayer,
      CombatSystem.aliveEnemies, CombatSystem.calculateExperience,
      CombatSystem.generateLoot, Character.isAlive, List.find?, List.filter]

/-- Witness for C6 (its first part has hypotheses): at the concrete
three-participant terminal state above, the winner is the primary. -/
theorem claim_C6_victory_experience_witness :
    (CombatSystem.getCombatResult
        [ { character := { name := "Hero", stats := { health := 50, maxHealth := 100, mana := 0, maxMana := 0, attack := 20, defense := 10, speed := 9 }, level := 4 }, isPlayer := true },
          { character := { name := "Orc", stats := { health := 0, maxHealth := 60, mana := 0, maxMana := 0, attack := 10, defense := 5, speed := 6 }, level := 3 }, isPlayer := false },
          { character := { name := "Troll", stats := { health := 0, maxHealth := 80, mana := 0, maxMana := 0, attack := 12, defense := 6, speed := 4 }, level := 5 }, isPlayer := false } ]
        [] (mkRat 1 2)).winner = some "Hero" := by
  have h := claim_C6_victory_experience.1
    [ { character := { name := "Hero", stats := { health := 50, maxHealth := 100, mana := 0, maxMana := 0, attack := 20, defense := 10, speed := 9 }, level := 4 }, isPlayer := true },
      { character := { name := "Orc", stats := { health := 0, maxHealth := 60, mana := 0, maxMana := 0, attack := 10, defense := 5, speed := 6 }, level := 3 }, isPlayer := false },
      { character := { name := "Troll", stats := { health := 0, maxHealth := 80, mana := 0, maxMana := 0, attack := 12, defense := 6, speed := 4 }, level := 5 }, isPlayer := false } ]
    [] (mkRat 1 2)
    { character := { name := "Hero", stats := { health := 50, maxHealth := 100, mana := 0, maxMana := 0, attack := 20, defense := 10, speed := 9 }, level := 4 }, isPlayer := true }
    (by decide) (by decide)
  exact h.1

/-- Primary participant of the concrete defeat session: slow, 5 health. -/
def doomedHero : Character :=
  { name := "Hero",
    stats := { health := 5, maxHealth := 5, mana := 0, maxMana := 0,
               attack := 5, defense := 0, speed := 1 }, level := 1 }

/-- Adversary of the concrete defeat session: fast, hits for 10. -/
def goblinBrute : Character :=
  { name := "Goblin",
    stats := { health := 100, maxHealth := 100, mana := 0, maxMana := 0,
               attack := 10, defense := 0, speed := 10 }, level := 2 }

/-- A full resolver session whose every `Math.random()` draw is `0.2`:
the goblin acts first (attack, no critical) and kills the hero; the loot
draw `0.2 < 0.3` then yields a Health Potion. -/
def defeatSession : Except CombatError (Option (CombatResult × CombatState)) :=
  CombatSystem.runCombat 2 (CombatSystem.mkCombatState doomedHero [goblinBrute] (fun _ => mkRat 1 5))

/-- Observable outcome of `defeatSession`: the result's winner, experience
and loot, and the primary participant's final health. -/
def defeatSessionView : Option (Option String × ℕ × List Item × Option Int) :=
  match defeatSession with
  | .ok (some (res, stF)) =>
    some (res.winner, res.experience, res.loot,
      (stF.participants.find? (fun p => p.isPlayer)).map (fun p => p.character.stats.health))
  | _ => none

/-- **C5, counterexample.**  A concrete resolver-driven session that
terminates with the primary not alive (final health 0): the claim says the
result "contains no loot", but the code runs `generateLoot()` regardless of
the outcome, and with the loot draw `0.2 < 0.3` the result carries a Health
Potion — a non-empty loot list. -/
theorem claim_C5_counterexample :
    defeatSessionView = some (some "Goblin", 0, [CombatSystem.lootPotion], some 0) ∧
    [CombatSystem.lootPotion] ≠ ([] : List Item) := by
  refine ⟨?_, by simp⟩
  decide

/-- **C5, amended.**  For every combat state in which the primary is not
alive, `getCombatResult` names as winner the first *living* adversary in
participant order (`undefined` if there is none), awards no experience, and
sets the loot to the output of the fixed-probability loot table — which is
evaluated regardless of the outcome, so the result may contain loot. -/
theorem claim_C5_defeat_result (ps : List Participant) (log : List CombatAction) (r : ℚ)
    (hdead : CombatSystem.alivePlayer ps = none) :
    (CombatSystem.getCombatResult ps log r).winner =
      ((CombatSystem.aliveEnemies ps).head?).map (fun p => p.character.name) ∧
    (CombatSystem.getCombatResult ps log r).experience = 0 ∧
    (CombatSystem.getCombatResult ps log r).loot = CombatSystem.generateLoot r := by
  unfold CombatSystem.getCombatResult
  rw [hdead]
  exact ⟨rfl, rfl, rfl⟩

/-- Witness for the amended C5 at a concrete dead-primary state. -/
theorem claim_C5_defeat_result_witness :
    (CombatSystem.getCombatResult
        [ { character := { doomedHero with stats := { doomedHero.stats with health := 0 } }, isPlayer := true },
          { character := goblinBrute, isPlayer := false } ] [] (mkRat 1 5)).winner = some "Goblin" ∧
    (CombatSystem.getCombatResult
        [ { character := { doomedHero with stats := { doomedHero.stats with health := 0 } }, isPlayer := true },
          { character := goblinBrute, isPlayer := false } ] [] (mkRat 1 5)).experience = 0 := by
  have h := claim_C5_defeat_result
    [ { character := { doomedHero with stats := { doomedHero.stats with health := 0 } }, isPlayer := true },
      { character := goblinBrute, isPlayer := false } ] [] (mkRat 1 5) (by decide)
  refine ⟨?_, h.2.1⟩
  rw [h.1]
  rfl

/-! ## The defeated-attacker failure is unreachable from `startCombat` (C7) -/

namespace CombatSystem

/-- The participant names, in order. -/
def namesOf (ps : List Participant) : List String :=
  ps.map (fun p => p.character.name)

theorem findCharacterByName_name {ps : List Participant} {n : String} {c : Character}
    (h : findCharacterByName ps n = some c) : c.name = n := by
  unfold findCharacterByName at h
  rcases Option.map_eq_some'.mp h with ⟨p, hp, rfl⟩
  simpa using List.find?_some hp

theorem findCharacterByName_of_nodup {ps : List Participant} {p : Participant}
    (hnd : (namesOf ps).Nodup) (hmem : p ∈ ps) :
    findCharacterByName ps p.character.name = some p.character := by
  induction ps with
  | nil => cases hmem
  | cons q rest ih =>
    simp only [namesOf, List.map_cons, List.nodup_cons] at hnd
    rcases List.mem_cons.mp hmem with rfl | hmem'
    · simp [findCharacterByName, List.find?]
    · by_cases hq : q.character.name = p.character.name
      · exact absurd (hq ▸ List.mem_map.mpr ⟨p, hmem', rfl⟩) hnd.1
      · have hrec := ih hnd.2 hmem'
        unfold findCharacterByName at hrec ⊢
        simp only [List.find?, decide_eq_false hq]
        exact hrec

theorem takeDamage_snd_ne_notAlive (c : Character) (d : Int) (n : String) :
    (Character.takeDamage c d).2 ≠ Except.error (CombatError.notAlive n) := by
  unfold Character.takeDamage
  split <;> simp

theorem attack_snd_ne_notAlive {a : Character} (t : Character) (r : ℚ)
    (ha : a.isAlive = true) (n : String) :
    (Character.attack a t r).2 ≠ Except.error (CombatError.notAlive n) := by
  unfold Character.attack
  rw [ha]
  simpa using takeDamage_snd_ne_notAlive t (if r < mkRat 1 10 then a.stats.attack * 2 else a.stats.attack) n

theorem attack_fst_name (a t : Character) (r : ℚ) :
    (Character.attack a t r).1.name = t.name := by
  unfold Character.attack Character.takeDamage
  split
  · rfl
  · dsimp only
    split <;> (split <;> rfl)

theorem choosePlayerAction_actor (p t : Character) (r : ℚ) :
    (choosePlayerAction p t r).actor = p.name := by
  unfold choosePlayerAction
  split
  · rfl
  · split <;> rfl

theorem chooseEnemyAction_actor (e t : Character) (r : ℚ) :
    (chooseEnemyAction e t r).actor = e.name := by
  unfold chooseEnemyAction
  split <;> rfl

theorem updateCharacter_namesOf {ps : List Participant} {n : String} {c : Character}
    (hc : c.name = n) : namesOf (updateCharacter ps n c) = namesOf ps := by
  induction ps with
  | nil => rfl
  | cons q rest ih =>
    unfold updateCharacter
    by_cases hq : q.character.name = n
    · simp [namesOf, hq, hc]
    · simpa [namesOf, hq] using ih

theorem executeAction_no_notAlive {st : CombatState} {action : CombatAction}
    (hactor : ∀ c, findCharacterByName st.participants action.actor = some c →
      c.isAlive = true) (n : String) :
    executeAction st action ≠ Except.error (CombatError.notAlive n) := by
  obtain ⟨aty, aname, atgt, adam⟩ := action
  dsimp only at hactor
  unfold executeAction
  dsimp only
  cases hfind : findCharacterByName st.participants aname with
  | none => simp
  | some actor =>
    have halive := hactor actor hfind
    cases aty with
    | attack =>
      cases atgt with
      | none => simp
      | some tn =>
        cases hftgt : findCharacterByName st.participants tn with
        | none => simp [hftgt]
        | some target =>
          simp only [hftgt]
          rcases hA : Character.attack actor target (drawRand st).1 with ⟨t', res⟩
          cases res with
          | error e =>
            have hne := attack_snd_ne_notAlive target (drawRand st).1 halive n
            rw [hA] at hne
            simp only [hA]
            simpa using hne
          | ok damage => simp [hA]
    | defend => simp
    | useItem => simp
    | flee => simp

theorem executeAction_ok_namesOf {st st' : CombatState} {action : CombatAction}
    (h : executeAction st action = Except.ok st') :
    namesOf st'.participants = namesOf st.participants := by
  obtain ⟨aty, aname, atgt, adam⟩ := action
  unfold executeAction at h
  dsimp only at h
  cases hfind : findCharacterByName st.participants aname with
  | none =>
    simp only [hfind, Except.ok.injEq] at h
    rw [← h]
  | some actor =>
    simp only [hfind] at h
    cases aty with
    | attack =>
      cases atgt with
      | none =>
        simp only [Except.ok.injEq] at h
        rw [← h]
      | some tn =>
        cases hftgt : findCharacterByName st.participants tn with
        | none =>
          simp only [hftgt, Except.ok.injEq] at h
          rw [← h]
        | some target =>
          simp only [hftgt] at h
          rcases hA : Character.attack actor target (drawRand st).1 with ⟨t', res⟩
          simp only [hA] at h
          cases res with
          | error e => simp at h
          | ok damage =>
            simp only [Except.ok.injEq] at h
            rw [← h]
            have hname : t'.name = tn := by
              have hfst := attack_fst_name actor target (drawRand st).1
              rw [hA] at hfst
              exact hfst.trans (findCharacterByName_name hftgt)
            exact updateCharacter_namesOf hname
    | defend =>
      simp only [Except.ok.injEq] at h
      rw [← h]
    | useItem =>
      simp only [Except.ok.injEq] at h
      rw [← h]
    | flee =>
      simp only [Except.ok.injEq] at h
      rw [← h]

theorem playerTurn_no_notAlive {st : CombatState} {cur : Participant}
    (hnd : (namesOf st.participants).Nodup) (hmem : cur ∈ st.participants)
    (halive : cur.character.isAlive = true) (n : String) :
    playerTurn st cur.character ≠ Except.error (CombatError.notAlive n) := by
  unfold playerTurn
  cases hae : aliveEnemies st.participants with
  | nil => simp
  | cons tp rest =>
    apply executeAction_no_notAlive
    intro c hc
    rw [choosePlayerAction_actor] at hc
    have hself : findCharacterByName st.participants cur.character.name
        = some cur.character := findCharacterByName_of_nodup hnd hmem
    have hc' : findCharacterByName st.participants cur.character.name = some c := hc
    rw [hself] at hc'
    injection hc' with hc'
    rw [← hc']
    exact halive

theorem enemyTurn_no_notAlive {st : CombatState} {cur : Participant}
    (hnd : (namesOf st.participants).Nodup) (hmem : cur ∈ st.participants)
    (halive : cur.character.isAlive = true) (n : String) :
    enemyTurn st cur.character ≠ Except.error (CombatError.notAlive n) := by
  unfold enemyTurn
  cases hpp : st.participants.find? (fun p => p.isPlayer) with
  | none => simp
  | some pp =>
    try simp only [hpp]
    split
    · simp
    · apply executeAction_no_notAlive
      intro c hc
      rw [chooseEnemyAction_actor] at hc
      have hself : findCharacterByName st.participants cur.character.name
          = some cur.character := findCharacterByName_of_nodup hnd hmem
      have hc' : findCharacterByName st.participants cur.character.name = some c := hc
      rw [hself] at hc'
      injection hc' with hc'
      rw [← hc']
      exact halive

theorem playerTurn_ok_namesOf {st st' : CombatState} {player : Character}
    (h : playerTurn st player = Except.ok st') :
    namesOf st'.participants = namesOf st.participants := by
  unfold playerTurn at h
  cases hae : aliveEnemies st.participants with
  | nil =>
    simp only [hae, Except.ok.injEq] at h
    subst h
    rfl
  | cons tp rest =>
    simp only [hae] at h
    have hx := executeAction_ok_namesOf h
    exact hx

theorem enemyTurn_ok_namesOf {st st' : CombatState} {enemy : Character}
    (h : enemyTurn st enemy = Except.ok st') :
    namesOf st'.participants = namesOf st.participants := by
  unfold enemyTurn at h
  cases hpp : st.participants.find? (fun p => p.isPlayer) with
  | none =>
    simp only [hpp, Except.ok.injEq] at h
    subst h
    rfl
  | some pp =>
    simp only [hpp] at h
    split at h
    · simp only [Except.ok.injEq] at h
      subst h
      rfl
    · have hx := executeAction_ok_namesOf h
      exact hx

theorem combatTurn_no_notAlive {st : CombatState}
    (hnd : (namesOf st.participants).Nodup) (n : String) :
    combatTurn st ≠ Except.error (CombatError.notAlive n) := by
  unfold combatTurn
  cases hget : st.participants.get? (st.currentTurn % st.participants.length) with
  | none => simp
  | some cur =>
    have hmem : cur ∈ st.participants := List.get?_mem hget
    try simp only [hget]
    by_cases hal : cur.character.isAlive = true
    · simp only [hal, if_true]
      by_cases hpl : cur.isPlayer = true
      · simp only [hpl, if_true]
        cases hpt : playerTurn st cur.character with
        | error e =>
          have hne := playerTurn_no_notAlive hnd hmem hal n
          rw [hpt] at hne
          simpa using hne
        | ok stm => simp
      · simp only [Bool.not_eq_true] at hpl
        simp only [hpl, Bool.false_eq_true, if_false]
        cases het : enemyTurn st cur.character with
        | error e =>
          have hne := enemyTurn_no_notAlive hnd hmem hal n
          rw [het] at hne
          simpa using hne
        | ok stm => simp
    · simp only [Bool.not_eq_true] at hal
      simp [hal]

theorem combatTurn_ok_namesOf {st st' : CombatState}
    (h : combatTurn st = Except.ok st') :
    namesOf st'.participants = namesOf st.participants := by
  unfold combatTurn at h
  cases hget : st.participants.get? (st.currentTurn % st.participants.length) with
  | none =>
    simp only [hget, Except.ok.injEq] at h
    subst h
    rfl
  | some cur =>
    simp only [hget] at h
    by_cases hal : cur.character.isAlive = true
    · simp only [hal, if_true] at h
      by_cases hpl : cur.isPlayer = true
      · simp only [hpl, if_true] at h
        cases hpt : playerTurn st cur.character with
        | error e => rw [hpt] at h; simp at h
        | ok stm =>
          rw [hpt] at h
          simp only [Except.ok.injEq] at h
          subst h
          have hx := playerTurn_ok_namesOf hpt
          exact hx
      · simp only [Bool.not_eq_true] at hpl
        simp only [hpl, Bool.false_eq_true, if_false] at h
        cases het : enemyTurn st cur.character with
        | error e => rw [het] at h; simp at h
        | ok stm =>
          rw [het] at h
          simp only [Except.ok.injEq] at h
          subst h
          have hx := enemyTurn_ok_namesOf het
          exact hx
    · simp only [Bool.not_eq_true] at hal
      simp only [hal, Bool.false_eq_true, if_false, Except.ok.injEq] at h
      subst h
      rfl

theorem runCombat_no_notAlive (fuel : ℕ) (st : CombatState)
    (hnd : (namesOf st.participants).Nodup) (n : String) :
    runCombat fuel st ≠ Except.error (CombatError.notAlive n) := by
  induction fuel generalizing st with
  | zero => simp [runCombat]
  | succ fuel ih =>
    unfold runCombat
    split
    · simp
    · cases hct : combatTurn st with
      | error e =>
        have hne := combatTurn_no_notAlive hnd n
        rw [hct] at hne
        simpa using hne
      | ok st' =>
        try simp only [hct]
        exact ih st' ((combatTurn_ok_namesOf hct) ▸ hnd)

theorem insertBySpeed_perm (p : Participant) (l : List Participant) :
    (insertBySpeed p l).Perm (p :: l) := by
  induction l with
  | nil => exact List.Perm.refl _
  | cons q rest ih =>
    unfold insertBySpeed
    split
    · exact List.Perm.refl _
    · exact (ih.cons q).trans (List.Perm.swap p q rest)

theorem sortBySpeed_perm (ps : List Participant) : (sortBySpeed ps).Perm ps := by
  induction ps with
  | nil => exact List.Perm.refl _
  | cons p rest ih =>
    exact (insertBySpeed_perm p (sortBySpeed rest)).trans (ih.cons p)

end CombatSystem

/-- A defeated (health 0) character used in the C7 witness. -/
def fallenWarrior : Character :=
  { name := "Fallen",
    stats := { health := 0, maxHealth := 120, mana := 0, maxMana := 0,
               attack := 25, defense := 15, speed := 8 }, level := 1 }

/-- **C7.** `attack(target)` raises the "cannot attack while defeated" hard
failure exactly when the attacker is not alive (health ≤ 0, i.e. health = 0
for in-range stats); and during a resolver-driven session (`startCombat`,
here `runCombat fuel` from the constructor state `mkCombatState`) whose
participants have pairwise-distinct names, every internal attack invocation
has a living attacker, so this failure is never produced by the resolver's
own control flow, for any fuel, draw oracle, and participant stats. -/
theorem claim_C7_defeated_attack_unreachable :
    (∀ (a t : Character) (r : ℚ),
      (Character.attack a t r).2 = Except.error (CombatError.notAlive a.name) ↔
        a.stats.health ≤ 0) ∧
    (∀ (player : Character) (enemies : List Character) (rng : ℕ → ℚ) (fuel : ℕ)
      (n : String),
      ((player :: enemies).map Character.name).Nodup →
      CombatSystem.runCombat fuel (CombatSystem.mkCombatState player enemies rng) ≠
        Except.error (CombatError.notAlive n)) := by
  constructor
  · intro a t r
    constructor
    · intro h
      by_contra hpos
      push_neg at hpos
      have ha : a.isAlive = true := by
        simp only [Character.isAlive, decide_eq_true_eq]
        omega
      exact CombatSystem.attack_snd_ne_notAlive t r ha a.name h
    · intro h
      have ha : a.isAlive = false := by
        simp only [Character.isAlive, decide_eq_false_iff_not]
        omega
      unfold Character.attack
      rw [ha]
      simp
  · intro player enemies rng fuel n hnd
    apply CombatSystem.runCombat_no_notAlive
    have hperm : (CombatSystem.namesOf
        (CombatSystem.mkCombatState player enemies rng).participants).Perm
        ((player :: enemies).map Character.name) := by
      unfold CombatSystem.mkCombatState CombatSystem.namesOf
      dsimp only
      refine ((CombatSystem.sortBySpeed_perm _).map _).trans ?_
      have : (List.map (fun p : Participant => p.character.name)
          (({ character := player, isPlayer := true } : Participant) ::
            enemies.map (fun e => ({ character := e, isPlayer := false } : Participant)))) =
          (player :: enemies).map Character.name := by
        simp [List.map_map]
      rw [this]
    exact hperm.symm.nodup hnd

/-- Witness for C7: a defeated attacker produces exactly the hard failure,
and a concrete two-participant distinct-name session (all draws 0.2) never
produces it. -/
theorem claim_C7_defeated_attack_unreachable_witness :
    (Character.attack fallenWarrior trainingDummy (mkRat 1 2)).2 =
      Except.error (CombatError.notAlive "Fallen") ∧
    CombatSystem.runCombat 3
        (CombatSystem.mkCombatState doomedHero [goblinBrute] (fun _ => mkRat 1 5)) ≠
      Except.error (CombatError.notAlive "Hero") := by
  constructor
  · exact (claim_C7_defeated_attack_unreachable.1 fallenWarrior trainingDummy
      (mkRat 1 2)).mpr (by decide)
  · exact claim_C7_defeated_attack_unreachable.2 doomedHero [goblinBrute]
      (fun _ => mkRat 1 5) 3 "Hero" (by decide)
